import Mathlib

/-!
Verification of `src/githubrepos.py` (function `search_github_repos`) as a
shallow embedding.  The HTTP world is modelled by a script of events, one per
`requests.get` call; the fetch loop consumes the script in order.  Wall-clock
time is an integer number of seconds threaded through the state (`time.time()`
/ `time.sleep`).  Python exceptions that no handler catches are modelled by the
`PageEnd.crashed` outcome; exhausting the event script while the loop still
wants another page is the model artifact `PageEnd.stuck`.

The Persistent Merger described by the spec has no implementation under the
source tree; it is modelled from the spec's own words near the end of the file.
-/

set_option autoImplicit false

namespace GithubRepos

/-- Dataclass `RepoData` of githubrepos.py. -/
structure RepoData where
  name : String
  description : Option String
  html_url : String
  stars : Nat
  forks : Nat
deriving Repr, DecidableEq

/-- One element of the `items` array of a search response body, with the
fields the code reads (`item["name"]`, `item["description"]`,
`item["html_url"]`, `item["stargazers_count"]`, `item["forks_count"]`). -/
structure Item where
  name : String
  description : Option String
  html_url : String
  stargazers_count : Nat
  forks_count : Nat
deriving Repr, DecidableEq

/-- One element of the `items` array: `ok` is a JSON object carrying the five
fields the code reads; `bad` is an entry whose processing raises — an object
missing one of those keys (`KeyError`) or a non-object value (`TypeError`)
at the subscripts of lines 81-88 — tagged with the exception its shape
raises. -/
inductive ItemJson where
  | ok : Item → ItemJson
  | bad : String → ItemJson
deriving Repr, DecidableEq

/-- The value of an `"items"` field: a JSON array, or a non-iterable value
(`null`, a number, ...) on which `for item in ...` at line 80 raises
`TypeError`. -/
inductive ItemsJson where
  | notList : ItemsJson
  | list : List ItemJson → ItemsJson
deriving Repr, DecidableEq

/-- A parsed JSON body.  `response.json()` may yield a JSON value that is not
an object, on which `data.get` raises `AttributeError`; an object may or may
not have an `"items"` field (`data.get("items", [])`), and a present field
may hold anything. -/
inductive BodyJson where
  | nonDict : BodyJson
  | dict : Option ItemsJson → BodyJson
deriving Repr, DecidableEq

/-- The response headers the code reads: `X-RateLimit-Remaining`,
`X-RateLimit-Reset` (raw strings, fed to Python `int`) and `Link`. -/
structure RateHeaders where
  rateRemaining : Option String
  rateReset : Option String
  link : Option String
deriving Repr, DecidableEq

/-- One `requests.get` call's result.  `raised` is a `RequestException` thrown
by the call itself; `resp status headers body` is a response, where
`body = none` means `response.json()` raises (`JSONDecodeError`, a
`RequestException` subclass). -/
inductive HttpEvent where
  | raised : HttpEvent
  | resp : Nat → RateHeaders → Option BodyJson → HttpEvent
deriving Repr, DecidableEq

/-- Observable actions of one loop iteration: the URL requested (with the
headers dict passed to `requests.get`) and the seconds slept. -/
inductive TraceEv where
  | req : String → List (String × String) → TraceEv
  | slept : Int → TraceEv
deriving Repr, DecidableEq

/-- Loop state for one keyword: `all_repo_data_for_keyword`, the `retries`
counter, and the wall clock. -/
structure PState where
  collected : List RepoData
  retries : Nat
  now : Int
deriving Repr, DecidableEq

/-- How the per-keyword `while next_page_url` loop ended. -/
inductive PageEnd where
  | done : PageEnd
  | stuck : PageEnd
  | crashed : String → PageEnd
deriving Repr, DecidableEq

/-- Result of running the per-keyword loop: trace, final state, the unconsumed
events, and how it ended. -/
structure PageResult where
  trace : List TraceEv
  st : PState
  rest : List HttpEvent
  outcome : PageEnd
deriving Repr, DecidableEq

/-- Result of `search_github_repos`: the `repo_data` dict (as an
insertion-ordered association list), the full trace, and the outcome. -/
structure SearchResult where
  table : List (String × List RepoData)
  trace : List TraceEv
  outcome : PageEnd
deriving Repr, DecidableEq

def GITHUB_API_BASE_URL : String := "https://api.github.com/search/repositories"

def GITHUB_API_VERSION : String := "2022-11-28"

def MAX_RETRIES : Nat := 5

def BASE_BACKOFF_TIME : Int := 5

/-- Python whitespace, as stripped by `str.strip()` and `int()`. -/
def isPySpace (c : Char) : Bool :=
  c = ' ' || c = '\t' || c = '\n' || c = '\r' || c = '\x0b' || c = '\x0c'

/-- Strip whitespace from both ends of a character list (`str.strip()`). -/
def trimChars (cs : List Char) : List Char :=
  ((cs.dropWhile isPySpace).reverse.dropWhile isPySpace).reverse

/-- Decimal digits of a nonempty all-digit character list, else `none`. -/
def digitsToNat (cs : List Char) : Option Nat :=
  if cs.isEmpty then none
  else if cs.all Char.isDigit then
    some (cs.foldl (fun a c => a * 10 + (c.toNat - 48)) 0)
  else none

/-- Model of Python `int(s)` on a string: surrounding whitespace stripped,
optional sign, then decimal digits; anything else raises `ValueError`
(`none`). -/
def pyInt (s : String) : Option Int :=
  match trimChars s.data with
  | [] => none
  | c :: cs =>
    if c = '-' then (digitsToNat cs).map (fun n => -(n : Int))
    else if c = '+' then (digitsToNat cs).map (fun n => (n : Int))
    else (digitsToNat (c :: cs)).map (fun n => (n : Int))

/-- Model of `int(response.headers.get(name, default))`: the default is used
when the header is absent; a present header is parsed with `int`. -/
def pyIntD (h : Option String) (d : Int) : Option Int :=
  match h with
  | none => some d
  | some s => pyInt s

/-- Does `pat` start the character list? -/
def startsWithChars : List Char → List Char → Bool
  | [], _ => true
  | _ :: _, [] => false
  | p :: ps, c :: cs => p = c && startsWithChars ps cs

/-- Does `pat` occur anywhere in the character list (Python `pat in s`)? -/
def occursIn (pat : List Char) : List Char → Bool
  | [] => pat.isEmpty
  | c :: cs => startsWithChars pat (c :: cs) || occursIn pat cs

/-- Split a character list on a separator character (`str.split(sep)`). -/
def splitOnChar (sep : Char) : List Char → List (List Char)
  | [] => [[]]
  | c :: cs =>
    if c = sep then [] :: splitOnChar sep cs
    else
      match splitOnChar sep cs with
      | [] => [[c]]
      | g :: gs => (c :: g) :: gs

/-- Model of `link.split(";")[0].replace("<", "").replace(">", "").strip()`. -/
def stripLink (l : List Char) : String :=
  (trimChars (((splitOnChar ';' l).headD []).filter (fun c => c ≠ '<' && c ≠ '>'))).asString

/-- Model of the `Link` header handling of lines 96-102: split on commas, keep
the parts containing `rel="next"`, strip each down to its URL, and take the
first if any. -/
def parseNextLink (lh : String) : Option String :=
  (((splitOnChar ',' lh.data).filter
    (fun l => occursIn "rel=\"next\"".data l)).map stripLink).head?

/-- Lines 95-104: a missing `Link` header means no next page. -/
def nextFromLink (link : Option String) : Option String :=
  match link with
  | none => none
  | some lh => parseNextLink lh

/-- Lines 84-90: the `RepoData(...)` constructor call on one item. -/
def itemToRepo (it : Item) : RepoData :=
  ⟨it.name, it.description, it.html_url, it.stargazers_count, it.forks_count⟩

/-- Lines 79-91: keep the items with `stargazers_count >= min_stars and
forks_count >= min_forks`, in order, as `RepoData`. -/
def pageExtract (minStars minForks : Nat) (items : List Item) : List RepoData :=
  (items.filter (fun it =>
    decide (minStars ≤ it.stargazers_count) && decide (minForks ≤ it.forks_count))).map itemToRepo

/-- Lines 45-50: the headers dict, with `Authorization` added only when
`token` is truthy (a non-`None`, nonempty string). -/
def buildHeaders (token : Option String) : List (String × String) :=
  match token with
  | none =>
    [("Accept", "application/vnd.github+json"), ("X-GitHub-Api-Version", GITHUB_API_VERSION)]
  | some t =>
    if t = "" then
      [("Accept", "application/vnd.github+json"), ("X-GitHub-Api-Version", GITHUB_API_VERSION)]
    else
      [("Accept", "application/vnd.github+json"), ("X-GitHub-Api-Version", GITHUB_API_VERSION),
       ("Authorization", "Bearer " ++ t)]

/-- The well-formed records of an `items` array, when every entry is one;
`none` as soon as any entry is malformed. -/
def goodItems : List ItemJson → Option (List Item)
  | [] => some []
  | ItemJson.ok it :: rest => (goodItems rest).map (fun its => it :: its)
  | ItemJson.bad _ :: _ => none

/-- Lines 80-90 as a fallible scan of the `items` array: walk the entries in
order, keep the well-formed ones passing the line-81 filter as `RepoData`,
and raise the tagged exception at the first malformed entry. -/
def pageScan (minStars minForks : Nat) : List ItemJson → Except String (List RepoData)
  | [] => Except.ok []
  | ItemJson.bad m :: _ => Except.error m
  | ItemJson.ok it :: rest =>
    match pageScan minStars minForks rest with
    | Except.error m => Except.error m
    | Except.ok recs =>
      if decide (minStars ≤ it.stargazers_count) && decide (minForks ≤ it.forks_count) then
        Except.ok (itemToRepo it :: recs)
      else Except.ok recs

/-- What one loop iteration does with one response, before control flow. -/
inductive Action where
  | exn : Action
  | rateLimit : Int → Action
  | crash : String → Action
  | page : List RepoData → Option String → Action
deriving Repr, DecidableEq

/-- Lines 62-104, the body of one `while` iteration after `requests.get`:

* a raised `RequestException` is the retry path (`exn`);
* status 403 parses both rate-limit headers with `int` (line 68 and 69; a
  non-numeric value raises an uncaught `ValueError`), then waits
  `max(reset_time - time.time(), 30)` (line 70);
* `raise_for_status()` turns any other 4xx/5xx status into an `HTTPError`,
  a `RequestException` (retry path), before the body is ever parsed;
* otherwise `response.json()` runs: a parse failure is a `JSONDecodeError`
  (retry path); a non-object value makes `data.get` raise `AttributeError`
  uncaught; an object contributes `data.get("items", [])` — a non-iterable
  `items` value raises `TypeError` uncaught at the `for`, a malformed entry
  raises uncaught at its subscripts (`pageScan`), and a completed loop keeps
  the filtered records, with the next URL from the `Link` header alone. -/
def classify (minStars minForks : Nat) (now : Int) : HttpEvent → Action
  | HttpEvent.raised => Action.exn
  | HttpEvent.resp status h body =>
    if status = 403 then
      match pyIntD h.rateRemaining 1, pyIntD h.rateReset (now + 60) with
      | some _, some reset => Action.rateLimit (max (reset - now) 30)
      | _, _ => Action.crash "ValueError"
    else if 400 ≤ status ∧ status < 600 then Action.exn
    else
      match body with
      | none => Action.exn
      | some BodyJson.nonDict => Action.crash "AttributeError"
      | some (BodyJson.dict none) =>
        Action.page (pageExtract minStars minForks []) (nextFromLink h.link)
      | some (BodyJson.dict (some ItemsJson.notList)) => Action.crash "TypeError"
      | some (BodyJson.dict (some (ItemsJson.list l))) =>
        match pageScan minStars minForks l with
        | Except.error m => Action.crash m
        | Except.ok recs => Action.page recs (nextFromLink h.link)

/-- Prepend trace events to a `PageResult`. -/
def withTrace (t : List TraceEv) (r : PageResult) : PageResult :=
  ⟨t ++ r.trace, r.st, r.rest, r.outcome⟩

/-- Lines 61-114, the `while next_page_url` loop for one keyword, consuming
one event per `requests.get`:

* rate limit: sleep the computed wait and re-request the same URL, leaving
  `retries` untouched (the `continue` on line 73);
* `RequestException`: if `retries < MAX_RETRIES`, sleep
  `BASE_BACKOFF_TIME * 2 ** retries`, bump `retries`, re-request the same URL;
  otherwise `break` (line 114), keeping what was collected;
* a good page extends `collected` and moves to the `Link`-derived next URL,
  stopping when there is none. -/
def runPages (hs : List (String × String)) (minStars minForks : Nat) :
    List HttpEvent → String → PState → PageResult
  | [], _, st => ⟨[], st, [], PageEnd.stuck⟩
  | ev :: evs, url, st =>
    match classify minStars minForks st.now ev with
    | Action.crash m => ⟨[TraceEv.req url hs], st, evs, PageEnd.crashed m⟩
    | Action.rateLimit w =>
      withTrace [TraceEv.req url hs, TraceEv.slept w]
        (runPages hs minStars minForks evs url ⟨st.collected, st.retries, st.now + w⟩)
    | Action.exn =>
      if st.retries < MAX_RETRIES then
        withTrace [TraceEv.req url hs, TraceEv.slept (BASE_BACKOFF_TIME * 2 ^ st.retries)]
          (runPages hs minStars minForks evs url
            ⟨st.collected, st.retries + 1, st.now + BASE_BACKOFF_TIME * 2 ^ st.retries⟩)
      else ⟨[TraceEv.req url hs], st, evs, PageEnd.done⟩
    | Action.page recs next =>
      match next with
      | none => ⟨[TraceEv.req url hs], ⟨st.collected ++ recs, st.retries, st.now⟩, evs, PageEnd.done⟩
      | some nxt =>
        withTrace [TraceEv.req url hs]
          (runPages hs minStars minForks evs nxt ⟨st.collected ++ recs, st.retries, st.now⟩)

/-- Python dict assignment `d[k] = v`: overwrite in place when the key exists,
else append (insertion order preserved). -/
def dictInsert (d : List (String × List RepoData)) (k : String) (v : List RepoData) :
    List (String × List RepoData) :=
  if d.any (fun p => p.1 == k) then d.map (fun p => if p.1 == k then (k, v) else p)
  else d ++ [(k, v)]

/-- Lines 54-121, the `for keyword in keywords` loop.  Each keyword starts a
fresh loop state (`retries = 0`, empty `collected`) at the base URL and
consumes events from where the previous keyword stopped; on normal loop exit
the keyword's entry is written into `repo_data`.  The inner handler catches
every `RequestException`, so the outer `except RequestException` on line 118
is unreachable; an uncaught exception (`crashed`) aborts the whole call. -/
def searchAux (token : Option String) (minStars minForks : Nat) :
    List String → List HttpEvent → Int → List (String × List RepoData) → SearchResult
  | [], _, _, acc => ⟨acc, [], PageEnd.done⟩
  | k :: ks, evs, now, acc =>
    let r := runPages (buildHeaders token) minStars minForks evs GITHUB_API_BASE_URL ⟨[], 0, now⟩
    match r.outcome with
    | PageEnd.done =>
      let rest := searchAux token minStars minForks ks r.rest r.st.now
        (dictInsert acc k r.st.collected)
      ⟨rest.table, r.trace ++ rest.trace, rest.outcome⟩
    | PageEnd.stuck => ⟨acc, r.trace, PageEnd.stuck⟩
    | PageEnd.crashed m => ⟨acc, r.trace, PageEnd.crashed m⟩

/-- The whole of `search_github_repos(keywords, token, min_stars, min_forks)`,
run against an event script with a starting clock. -/
def search_github_repos (keywords : List String) (token : Option String)
    (minStars minForks : Nat) (evs : List HttpEvent) (now : Int) : SearchResult :=
  searchAux token minStars minForks keywords evs now []

/-- A rate-limit header value that `int` accepts (or an absent header, which
takes the numeric default). -/
def hdrStrOK (h : Option String) : Bool :=
  match h with
  | none => true
  | some s => (pyInt s).isSome

/-- An `items` value over which the `for` loop of line 80 completes without
raising: absent (defaulted to `[]`), or a list whose every entry is a
well-formed object.  A non-iterable value raises `TypeError`; a malformed
entry raises at its subscripts. -/
def itemsOK : Option ItemsJson → Bool
  | none => true
  | some ItemsJson.notList => false
  | some (ItemsJson.list l) => (goodItems l).isSome

/-- A body whose processing raises no uncaught exception: an unparseable body
(`none`) is a caught `JSONDecodeError`; a JSON non-object makes `data.get`
raise; an object is safe exactly when its `items` value is (`itemsOK`). -/
def bodyOK : Option BodyJson → Bool
  | none => true
  | some BodyJson.nonDict => false
  | some (BodyJson.dict items) => itemsOK items

/-- An event the code can process without hitting an uncaught exception:
403 responses carry `int`-parseable (or absent) rate-limit headers, no
response body is a JSON non-object, and every present `items` value is a
list of well-formed entries. -/
def evOK : HttpEvent → Bool
  | HttpEvent.raised => true
  | HttpEvent.resp status h body =>
    (if status = 403 then hdrStrOK h.rateRemaining && hdrStrOK h.rateReset else true)
      && bodyOK body

/-- Modelled from the spec: the Persistent Merger of section 4.4 has no
implementation under the source tree (only the fetcher is there), so its
record type is taken from the spec's persisted-artifact field list
`name, url, description, stars, forks, language, tech_stack[], keywords[],
category`, with `url` the identity key. -/
structure EnrichedRecord where
  name : String
  url : String
  description : Option String
  stars : Nat
  forks : Nat
  language : Option String
  tech_stack : List String
  keywords : List String
  category : String
deriving Repr, DecidableEq

/-- Modelled from the spec: append one record unless its `url` key is already
present in the store (existing records are never modified or removed). -/
def addRecord (store : List EnrichedRecord) (r : EnrichedRecord) : List EnrichedRecord :=
  if store.any (fun s => s.url == r.url) then store else store ++ [r]

/-- Modelled from the spec: `merge(existingStore, newRecords)` appends, in
order, exactly the new records whose `url` is not already present. -/
def merge (store newRecords : List EnrichedRecord) : List EnrichedRecord :=
  newRecords.foldl addRecord store

/-! Projection lemmas and one-step unfolding lemmas for the fetch loop. -/

@[simp] theorem withTrace_trace (t : List TraceEv) (r : PageResult) :
    (withTrace t r).trace = t ++ r.trace := rfl

@[simp] theorem withTrace_st (t : List TraceEv) (r : PageResult) :
    (withTrace t r).st = r.st := rfl

@[simp] theorem withTrace_rest (t : List TraceEv) (r : PageResult) :
    (withTrace t r).rest = r.rest := rfl

@[simp] theorem withTrace_outcome (t : List TraceEv) (r : PageResult) :
    (withTrace t r).outcome = r.outcome := rfl

theorem classify_raised (ms mf : Nat) (now : Int) :
    classify ms mf now HttpEvent.raised = Action.exn := rfl

theorem classify_403 (ms mf : Nat) (now : Int) (h : RateHeaders) (b : Option BodyJson)
    (reset : Int) (h1 : (pyIntD h.rateRemaining 1).isSome = true)
    (h2 : pyIntD h.rateReset (now + 60) = some reset) :
    classify ms mf now (HttpEvent.resp 403 h b) = Action.rateLimit (max (reset - now) 30) := by
  obtain ⟨q, hq⟩ := Option.isSome_iff_exists.mp h1
  simp [classify, hq, h2]

theorem classify_err (ms mf : Nat) (now : Int) (s : Nat) (h : RateHeaders) (b : Option BodyJson)
    (h1 : 400 ≤ s) (h2 : s < 600) (h3 : s ≠ 403) :
    classify ms mf now (HttpEvent.resp s h b) = Action.exn := by
  simp [classify, h1, h2, h3]

theorem pageScan_of_goodItems (ms mf : Nat) :
    ∀ (l : List ItemJson) (its : List Item), goodItems l = some its →
      pageScan ms mf l = Except.ok (pageExtract ms mf its) := by
  intro l
  induction l with
  | nil =>
    intro its hg
    simp only [goodItems, Option.some.injEq] at hg
    subst hg
    rfl
  | cons e rest ih =>
    intro its hg
    cases e with
    | bad m => simp [goodItems] at hg
    | ok it =>
      rw [goodItems, Option.map_eq_some'] at hg
      obtain ⟨its', hrest, hits⟩ := hg
      subst hits
      rw [pageScan, ih its' hrest]
      by_cases hcond :
          (decide (ms ≤ it.stargazers_count) && decide (mf ≤ it.forks_count)) = true
      · simp [hcond, pageExtract, List.filter_cons]
      · simp [hcond, pageExtract, List.filter_cons]

theorem pageScan_ok_good (ms mf : Nat) :
    ∀ (l : List ItemJson) (recs : List RepoData), pageScan ms mf l = Except.ok recs →
      ∃ its, goodItems l = some its := by
  intro l
  induction l with
  | nil => intro recs _; exact ⟨[], rfl⟩
  | cons e rest ih =>
    intro recs hp
    cases e with
    | bad m => simp [pageScan] at hp
    | ok it =>
      rw [pageScan] at hp
      cases hr : pageScan ms mf rest with
      | error m => rw [hr] at hp; simp at hp
      | ok recs' =>
        obtain ⟨its', hits⟩ := ih recs' hr
        exact ⟨it :: its', by simp [goodItems, hits]⟩

theorem pageScan_ok_inv (ms mf : Nat) (l : List ItemJson) (recs : List RepoData)
    (hp : pageScan ms mf l = Except.ok recs) :
    ∃ its, goodItems l = some its ∧ recs = pageExtract ms mf its := by
  obtain ⟨its, hits⟩ := pageScan_ok_good ms mf l recs hp
  refine ⟨its, hits, ?_⟩
  have := pageScan_of_goodItems ms mf l its hits
  rw [hp] at this
  exact (Except.ok.injEq _ _ ).mp this

theorem classify_parse_error (ms mf : Nat) (now : Int) (s : Nat) (h : RateHeaders)
    (hlt : s < 400) :
    classify ms mf now (HttpEvent.resp s h none) = Action.exn := by
  have h3 : s ≠ 403 := by omega
  have h4 : ¬ (400 ≤ s ∧ s < 600) := by omega
  simp [classify, h3, h4]

theorem classify_nonDict (ms mf : Nat) (now : Int) (s : Nat) (h : RateHeaders)
    (hlt : s < 400) :
    classify ms mf now (HttpEvent.resp s h (some BodyJson.nonDict)) =
      Action.crash "AttributeError" := by
  have h3 : s ≠ 403 := by omega
  have h4 : ¬ (400 ≤ s ∧ s < 600) := by omega
  simp [classify, h3, h4]

theorem runPages_nil (hs : List (String × String)) (ms mf : Nat) (url : String) (st : PState) :
    runPages hs ms mf [] url st = ⟨[], st, [], PageEnd.stuck⟩ := rfl

theorem runPages_step_rateLimit (hs : List (String × String)) (ms mf : Nat) (ev : HttpEvent)
    (evs : List HttpEvent) (url : String) (st : PState) (w : Int)
    (hc : classify ms mf st.now ev = Action.rateLimit w) :
    runPages hs ms mf (ev :: evs) url st =
      withTrace [TraceEv.req url hs, TraceEv.slept w]
        (runPages hs ms mf evs url ⟨st.collected, st.retries, st.now + w⟩) := by
  simp only [runPages]
  rw [hc]

theorem runPages_step_crash (hs : List (String × String)) (ms mf : Nat) (ev : HttpEvent)
    (evs : List HttpEvent) (url : String) (st : PState) (m : String)
    (hc : classify ms mf st.now ev = Action.crash m) :
    runPages hs ms mf (ev :: evs) url st =
      ⟨[TraceEv.req url hs], st, evs, PageEnd.crashed m⟩ := by
  simp only [runPages]
  rw [hc]

theorem runPages_step_exn_retry (hs : List (String × String)) (ms mf : Nat) (ev : HttpEvent)
    (evs : List HttpEvent) (url : String) (st : PState)
    (hc : classify ms mf st.now ev = Action.exn) (hr : st.retries < MAX_RETRIES) :
    runPages hs ms mf (ev :: evs) url st =
      withTrace [TraceEv.req url hs, TraceEv.slept (BASE_BACKOFF_TIME * 2 ^ st.retries)]
        (runPages hs ms mf evs url
          ⟨st.collected, st.retries + 1, st.now + BASE_BACKOFF_TIME * 2 ^ st.retries⟩) := by
  simp only [runPages]
  rw [hc]
  simp [hr]

theorem runPages_step_exn_stop (hs : List (String × String)) (ms mf : Nat) (ev : HttpEvent)
    (evs : List HttpEvent) (url : String) (st : PState)
    (hc : classify ms mf st.now ev = Action.exn) (hr : ¬ st.retries < MAX_RETRIES) :
    runPages hs ms mf (ev :: evs) url st =
      ⟨[TraceEv.req url hs], st, evs, PageEnd.done⟩ := by
  simp only [runPages]
  rw [hc]
  simp [hr]

theorem runPages_step_page_none (hs : List (String × String)) (ms mf : Nat) (ev : HttpEvent)
    (evs : List HttpEvent) (url : String) (st : PState) (recs : List RepoData)
    (hc : classify ms mf st.now ev = Action.page recs none) :
    runPages hs ms mf (ev :: evs) url st =
      ⟨[TraceEv.req url hs], ⟨st.collected ++ recs, st.retries, st.now⟩, evs, PageEnd.done⟩ := by
  simp only [runPages]
  rw [hc]

theorem runPages_step_page_some (hs : List (String × String)) (ms mf : Nat) (ev : HttpEvent)
    (evs : List HttpEvent) (url : String) (st : PState) (recs : List RepoData) (nxt : String)
    (hc : classify ms mf st.now ev = Action.page recs (some nxt)) :
    runPages hs ms mf (ev :: evs) url st =
      withTrace [TraceEv.req url hs]
        (runPages hs ms mf evs nxt ⟨st.collected ++ recs, st.retries, st.now⟩) := by
  simp only [runPages]
  rw [hc]

theorem pyIntD_of_hdrStrOK (h : Option String) (d : Int) (hok : hdrStrOK h = true) :
    ∃ v, pyIntD h d = some v := by
  cases h with
  | none => exact ⟨d, rfl⟩
  | some s =>
    simp only [hdrStrOK, Option.isSome_iff_exists] at hok
    obtain ⟨v, hv⟩ := hok
    exact ⟨v, hv⟩

theorem searchAux_nil (token : Option String) (ms mf : Nat) (evs : List HttpEvent) (now : Int)
    (acc : List (String × List RepoData)) :
    searchAux token ms mf [] evs now acc = ⟨acc, [], PageEnd.done⟩ := rfl

theorem searchAux_cons (token : Option String) (ms mf : Nat) (k : String) (ks : List String)
    (evs : List HttpEvent) (now : Int) (acc : List (String × List RepoData)) :
    searchAux token ms mf (k :: ks) evs now acc =
      match (runPages (buildHeaders token) ms mf evs GITHUB_API_BASE_URL ⟨[], 0, now⟩).outcome with
      | PageEnd.done =>
        ⟨(searchAux token ms mf ks
            (runPages (buildHeaders token) ms mf evs GITHUB_API_BASE_URL ⟨[], 0, now⟩).rest
            (runPages (buildHeaders token) ms mf evs GITHUB_API_BASE_URL ⟨[], 0, now⟩).st.now
            (dictInsert acc k
              (runPages (buildHeaders token) ms mf evs GITHUB_API_BASE_URL
                ⟨[], 0, now⟩).st.collected)).table,
         (runPages (buildHeaders token) ms mf evs GITHUB_API_BASE_URL ⟨[], 0, now⟩).trace ++
           (searchAux token ms mf ks
             (runPages (buildHeaders token) ms mf evs GITHUB_API_BASE_URL ⟨[], 0, now⟩).rest
             (runPages (buildHeaders token) ms mf evs GITHUB_API_BASE_URL ⟨[], 0, now⟩).st.now
             (dictInsert acc k
               (runPages (buildHeaders token) ms mf evs GITHUB_API_BASE_URL
                 ⟨[], 0, now⟩).st.collected)).trace,
         (searchAux token ms mf ks
           (runPages (buildHeaders token) ms mf evs GITHUB_API_BASE_URL ⟨[], 0, now⟩).rest
           (runPages (buildHeaders token) ms mf evs GITHUB_API_BASE_URL ⟨[], 0, now⟩).st.now
           (dictInsert acc k
             (runPages (buildHeaders token) ms mf evs GITHUB_API_BASE_URL
               ⟨[], 0, now⟩).st.collected)).outcome⟩
      | PageEnd.stuck =>
        ⟨acc, (runPages (buildHeaders token) ms mf evs GITHUB_API_BASE_URL ⟨[], 0, now⟩).trace,
          PageEnd.stuck⟩
      | PageEnd.crashed m =>
        ⟨acc, (runPages (buildHeaders token) ms mf evs GITHUB_API_BASE_URL ⟨[], 0, now⟩).trace,
          PageEnd.crashed m⟩ := rfl

theorem searchAux_cons_done (token : Option String) (ms mf : Nat) (k : String)
    (ks : List String) (evs : List HttpEvent) (now : Int) (acc : List (String × List RepoData))
    (hdone : (runPages (buildHeaders token) ms mf evs GITHUB_API_BASE_URL
      ⟨[], 0, now⟩).outcome = PageEnd.done) :
    searchAux token ms mf (k :: ks) evs now acc =
      ⟨(searchAux token ms mf ks
          (runPages (buildHeaders token) ms mf evs GITHUB_API_BASE_URL ⟨[], 0, now⟩).rest
          (runPages (buildHeaders token) ms mf evs GITHUB_API_BASE_URL ⟨[], 0, now⟩).st.now
          (dictInsert acc k
            (runPages (buildHeaders token) ms mf evs GITHUB_API_BASE_URL
              ⟨[], 0, now⟩).st.collected)).table,
       (runPages (buildHeaders token) ms mf evs GITHUB_API_BASE_URL ⟨[], 0, now⟩).trace ++
         (searchAux token ms mf ks
           (runPages (buildHeaders token) ms mf evs GITHUB_API_BASE_URL ⟨[], 0, now⟩).rest
           (runPages (buildHeaders token) ms mf evs GITHUB_API_BASE_URL ⟨[], 0, now⟩).st.now
           (dictInsert acc k
             (runPages (buildHeaders token) ms mf evs GITHUB_API_BASE_URL
               ⟨[], 0, now⟩).st.collected)).trace,
       (searchAux token ms mf ks
         (runPages (buildHeaders token) ms mf evs GITHUB_API_BASE_URL ⟨[], 0, now⟩).rest
         (runPages (buildHeaders token) ms mf evs GITHUB_API_BASE_URL ⟨[], 0, now⟩).st.now
         (dictInsert acc k
           (runPages (buildHeaders token) ms mf evs GITHUB_API_BASE_URL
             ⟨[], 0, now⟩).st.collected)).outcome⟩ := by
  rw [searchAux_cons, hdone]

theorem searchAux_cons_stuck (token : Option String) (ms mf : Nat) (k : String)
    (ks : List String) (evs : List HttpEvent) (now : Int) (acc : List (String × List RepoData))
    (hst : (runPages (buildHeaders token) ms mf evs GITHUB_API_BASE_URL
      ⟨[], 0, now⟩).outcome = PageEnd.stuck) :
    searchAux token ms mf (k :: ks) evs now acc =
      ⟨acc, (runPages (buildHeaders token) ms mf evs GITHUB_API_BASE_URL ⟨[], 0, now⟩).trace,
        PageEnd.stuck⟩ := by
  rw [searchAux_cons, hst]

theorem searchAux_cons_crashed (token : Option String) (ms mf : Nat) (k : String)
    (ks : List String) (evs : List HttpEvent) (now : Int) (acc : List (String × List RepoData))
    (m : String)
    (hcr : (runPages (buildHeaders token) ms mf evs GITHUB_API_BASE_URL
      ⟨[], 0, now⟩).outcome = PageEnd.crashed m) :
    searchAux token ms mf (k :: ks) evs now acc =
      ⟨acc, (runPages (buildHeaders token) ms mf evs GITHUB_API_BASE_URL ⟨[], 0, now⟩).trace,
        PageEnd.crashed m⟩ := by
  rw [searchAux_cons, hcr]

/-! Claim theorems. -/

/-- C1: a 403 (rate-limit) response makes the fetcher sleep exactly
`max(resetTime - now, 30)` seconds and then re-issue the request for the very
same page URL, with the `retries` counter and the collected results untouched
— so the rate-limit retry never consumes the transient-failure retry budget
(first conjunct); and a script of any number `n` of consecutive 403 responses
is fully consumed without ever abandoning the page: after all `n` suspensions
the loop is still pending on the same request with `retries` unchanged, i.e.
rate-limit retries are unbounded in attempts (second conjunct). -/
theorem c1_rate_limit_wait_and_retry :
    (∀ (hs : List (String × String)) (ms mf : Nat) (h : RateHeaders) (b : Option BodyJson)
        (evs : List HttpEvent) (url : String) (st : PState) (reset : Int),
      (pyIntD h.rateRemaining 1).isSome = true →
      pyIntD h.rateReset (st.now + 60) = some reset →
      runPages hs ms mf (HttpEvent.resp 403 h b :: evs) url st =
        withTrace [TraceEv.req url hs, TraceEv.slept (max (reset - st.now) 30)]
          (runPages hs ms mf evs url
            ⟨st.collected, st.retries, st.now + max (reset - st.now) 30⟩))
    ∧ (∀ (n : Nat) (hs : List (String × String)) (ms mf : Nat) (h : RateHeaders)
        (b : Option BodyJson) (url : String) (st : PState),
      hdrStrOK h.rateRemaining = true → hdrStrOK h.rateReset = true →
      (runPages hs ms mf (List.replicate n (HttpEvent.resp 403 h b)) url st).outcome
          = PageEnd.stuck
        ∧ (runPages hs ms mf (List.replicate n (HttpEvent.resp 403 h b)) url st).st.retries
          = st.retries
        ∧ (runPages hs ms mf (List.replicate n (HttpEvent.resp 403 h b)) url st).st.collected
          = st.collected
        ∧ (runPages hs ms mf (List.replicate n (HttpEvent.resp 403 h b)) url st).rest = []) := by
  constructor
  · intro hs ms mf h b evs url st reset h1 h2
    exact runPages_step_rateLimit hs ms mf _ evs url st _
      (classify_403 ms mf st.now h b reset h1 h2)
  · intro n hs ms mf h b url st hok1 hok2
    induction n generalizing st with
    | zero => simp [runPages_nil]
    | succ n ih =>
      obtain ⟨r1, hr1⟩ := pyIntD_of_hdrStrOK h.rateRemaining 1 hok1
      obtain ⟨reset, hreset⟩ := pyIntD_of_hdrStrOK h.rateReset (st.now + 60) hok2
      have h1 : (pyIntD h.rateRemaining 1).isSome = true := by rw [hr1]; rfl
      rw [List.replicate_succ, runPages_step_rateLimit hs ms mf _ _ url st _
        (classify_403 ms mf st.now h b reset h1 hreset)]
      simpa using ih ⟨st.collected, st.retries, st.now + max (reset - st.now) 30⟩

/-- Witness for C1: a concrete 403 response advertising reset time 100 at
clock 40 sleeps `max(100 - 40, 30) = 60` seconds and retries the same URL. -/
theorem c1_rate_limit_wait_and_retry_witness :
    runPages [] 0 0 [HttpEvent.resp 403 ⟨some "0", some "100", none⟩ none]
        GITHUB_API_BASE_URL ⟨[], 0, 40⟩ =
      withTrace [TraceEv.req GITHUB_API_BASE_URL [], TraceEv.slept (max ((100 : Int) - 40) 30)]
        (runPages [] 0 0 [] GITHUB_API_BASE_URL ⟨[], 0, 40 + max ((100 : Int) - 40) 30⟩) :=
  c1_rate_limit_wait_and_retry.1 [] 0 0 ⟨some "0", some "100", none⟩ none []
    GITHUB_API_BASE_URL ⟨[], 0, 40⟩ 100 (by decide) (by decide)

/-- C2: a `RequestException` below the retry ceiling sleeps
`BASE_BACKOFF_TIME * 2 ^ retries` and retries the same page with the counter
bumped (first conjunct); at the ceiling the keyword's remaining pages are
abandoned and the collected partial results are kept, leaving the rest of the
script for the following keywords (second conjunct); a non-403 error status
(4xx/5xx) behaves exactly like a thrown `RequestException` (third conjunct);
and each keyword starts with a fresh `retries = 0` state, and after its loop
ends normally — abandonment included — the run stores its partial results and
proceeds to the next keyword (fourth conjunct). -/
theorem c2_transient_backoff_and_abandon :
    (∀ (hs : List (String × String)) (ms mf : Nat) (evs : List HttpEvent) (url : String)
        (st : PState),
      st.retries < MAX_RETRIES →
      runPages hs ms mf (HttpEvent.raised :: evs) url st =
        withTrace [TraceEv.req url hs, TraceEv.slept (BASE_BACKOFF_TIME * 2 ^ st.retries)]
          (runPages hs ms mf evs url
            ⟨st.collected, st.retries + 1, st.now + BASE_BACKOFF_TIME * 2 ^ st.retries⟩))
    ∧ (∀ (hs : List (String × String)) (ms mf : Nat) (evs : List HttpEvent) (url : String)
        (st : PState),
      ¬ st.retries < MAX_RETRIES →
      runPages hs ms mf (HttpEvent.raised :: evs) url st =
        ⟨[TraceEv.req url hs], st, evs, PageEnd.done⟩)
    ∧ (∀ (hs : List (String × String)) (ms mf : Nat) (s : Nat) (h : RateHeaders)
        (b : Option BodyJson) (evs : List HttpEvent) (url : String) (st : PState),
      400 ≤ s → s < 600 → s ≠ 403 →
      runPages hs ms mf (HttpEvent.resp s h b :: evs) url st =
        runPages hs ms mf (HttpEvent.raised :: evs) url st)
    ∧ (∀ (token : Option String) (ms mf : Nat) (k : String) (ks : List String)
        (evs : List HttpEvent) (now : Int) (acc : List (String × List RepoData)),
      (runPages (buildHeaders token) ms mf evs GITHUB_API_BASE_URL ⟨[], 0, now⟩).outcome
          = PageEnd.done →
      (searchAux token ms mf (k :: ks) evs now acc).table =
        (searchAux token ms mf ks
          (runPages (buildHeaders token) ms mf evs GITHUB_API_BASE_URL ⟨[], 0, now⟩).rest
          (runPages (buildHeaders token) ms mf evs GITHUB_API_BASE_URL ⟨[], 0, now⟩).st.now
          (dictInsert acc k
            (runPages (buildHeaders token) ms mf evs GITHUB_API_BASE_URL
              ⟨[], 0, now⟩).st.collected)).table) := by
  refine ⟨?_, ?_, ?_, ?_⟩
  · intro hs ms mf evs url st hr
    exact runPages_step_exn_retry hs ms mf _ evs url st (classify_raised ms mf st.now) hr
  · intro hs ms mf evs url st hr
    exact runPages_step_exn_stop hs ms mf _ evs url st (classify_raised ms mf st.now) hr
  · intro hs ms mf s h b evs url st h1 h2 h3
    simp only [runPages]
    rw [classify_err ms mf st.now s h b h1 h2 h3, classify_raised]
  · intro token ms mf k ks evs now acc hdone
    rw [searchAux_cons_done token ms mf k ks evs now acc hdone]

/-- Witness for C2: a first failure at `retries = 0` sleeps 5 seconds; at
`retries = 5` the page is abandoned keeping the partial results; a 500
response acts like a thrown exception; and a keyword whose fetch ends with an
exhausted retry budget still stores its entry and the run moves on. -/
theorem c2_transient_backoff_and_abandon_witness :
    (runPages [] 0 0 [HttpEvent.raised] "u" ⟨[], 0, 7⟩ =
      withTrace [TraceEv.req "u" [], TraceEv.slept (BASE_BACKOFF_TIME * 2 ^ 0)]
        (runPages [] 0 0 [] "u" ⟨[], 0 + 1, 7 + BASE_BACKOFF_TIME * 2 ^ 0⟩))
    ∧ (runPages [] 0 0 [HttpEvent.raised] "u" ⟨[⟨"r", none, "x", 1, 1⟩], 5, 7⟩ =
      ⟨[TraceEv.req "u" []], ⟨[⟨"r", none, "x", 1, 1⟩], 5, 7⟩, [], PageEnd.done⟩)
    ∧ (runPages [] 0 0 [HttpEvent.resp 500 ⟨none, none, none⟩ none] "u" ⟨[], 0, 7⟩ =
      runPages [] 0 0 [HttpEvent.raised] "u" ⟨[], 0, 7⟩)
    ∧ ((searchAux none 0 0 ["a", "b"]
        (List.replicate 6 HttpEvent.raised) 0 []).table =
      (searchAux none 0 0 ["b"]
        (runPages (buildHeaders none) 0 0 (List.replicate 6 HttpEvent.raised)
          GITHUB_API_BASE_URL ⟨[], 0, 0⟩).rest
        (runPages (buildHeaders none) 0 0 (List.replicate 6 HttpEvent.raised)
          GITHUB_API_BASE_URL ⟨[], 0, 0⟩).st.now
        (dictInsert [] "a"
          (runPages (buildHeaders none) 0 0 (List.replicate 6 HttpEvent.raised)
            GITHUB_API_BASE_URL ⟨[], 0, 0⟩).st.collected)).table) :=
  ⟨c2_transient_backoff_and_abandon.1 [] 0 0 [] "u" ⟨[], 0, 7⟩ (by decide),
   c2_transient_backoff_and_abandon.2.1 [] 0 0 [] "u" ⟨[⟨"r", none, "x", 1, 1⟩], 5, 7⟩
     (by decide),
   c2_transient_backoff_and_abandon.2.2.1 [] 0 0 500 ⟨none, none, none⟩ none [] "u" ⟨[], 0, 7⟩
     (by decide) (by decide) (by decide),
   c2_transient_backoff_and_abandon.2.2.2 none 0 0 "a" ["b"]
     (List.replicate 6 HttpEvent.raised) 0 [] (by decide)⟩

theorem pageExtract_sound (ms mf : Nat) (items : List Item) (r : RepoData)
    (hr : r ∈ pageExtract ms mf items) : ms ≤ r.stars ∧ mf ≤ r.forks := by
  simp only [pageExtract, List.mem_map, List.mem_filter] at hr
  obtain ⟨it, ⟨hmem, hcond⟩, hmap⟩ := hr
  rw [Bool.and_eq_true, decide_eq_true_eq, decide_eq_true_eq] at hcond
  rw [← hmap]
  exact hcond

theorem classify_page_inv (ms mf : Nat) (now : Int) (ev : HttpEvent) (recs : List RepoData)
    (next : Option String) (hc : classify ms mf now ev = Action.page recs next) :
    ∃ items, recs = pageExtract ms mf items := by
  cases ev with
  | raised => simp [classify] at hc
  | resp s h body =>
    simp only [classify] at hc
    split at hc
    · split at hc
      · simp at hc
      · simp at hc
    · split at hc
      · simp at hc
      · split at hc
        · simp at hc
        · simp at hc
        · rw [Action.page.injEq] at hc
          exact ⟨[], hc.1.symm⟩
        · simp at hc
        · rename_i l
          cases hscan : pageScan ms mf l with
          | error m2 => rw [hscan] at hc; simp at hc
          | ok recs2 =>
            rw [hscan] at hc
            rw [Action.page.injEq] at hc
            obtain ⟨its, -, hrecs⟩ := pageScan_ok_inv ms mf l recs2 hscan
            exact ⟨its, hc.1.symm.trans hrecs⟩

theorem runPages_collected_sound (hs : List (String × String)) (ms mf : Nat) :
    ∀ (evs : List HttpEvent) (url : String) (st : PState),
      (∀ r ∈ st.collected, ms ≤ r.stars ∧ mf ≤ r.forks) →
      ∀ r ∈ (runPages hs ms mf evs url st).st.collected, ms ≤ r.stars ∧ mf ≤ r.forks := by
  intro evs
  induction evs with
  | nil => intro url st hst; simpa [runPages_nil] using hst
  | cons ev evs ih =>
    intro url st hst
    cases hc : classify ms mf st.now ev with
    | crash m => rw [runPages_step_crash hs ms mf ev evs url st m hc]; exact hst
    | rateLimit w =>
      rw [runPages_step_rateLimit hs ms mf ev evs url st w hc]
      simpa using ih url ⟨st.collected, st.retries, st.now + w⟩ hst
    | exn =>
      by_cases hretry : st.retries < MAX_RETRIES
      · rw [runPages_step_exn_retry hs ms mf ev evs url st hc hretry]
        simpa using ih url
          ⟨st.collected, st.retries + 1, st.now + BASE_BACKOFF_TIME * 2 ^ st.retries⟩ hst
      · rw [runPages_step_exn_stop hs ms mf ev evs url st hc hretry]; exact hst
    | page recs next =>
      obtain ⟨items, hitems⟩ := classify_page_inv ms mf st.now ev recs next hc
      have hext : ∀ r ∈ st.collected ++ recs, ms ≤ r.stars ∧ mf ≤ r.forks := by
        intro r hr
        rcases List.mem_append.mp hr with hin | hin
        · exact hst r hin
        · exact pageExtract_sound ms mf items r (hitems ▸ hin)
      cases next with
      | none => rw [runPages_step_page_none hs ms mf ev evs url st recs hc]; exact hext
      | some nxt =>
        rw [runPages_step_page_some hs ms mf ev evs url st recs nxt hc]
        simpa using ih nxt ⟨st.collected ++ recs, st.retries, st.now⟩ hext

theorem dictInsert_mem (d : List (String × List RepoData)) (k : String) (v : List RepoData)
    (p : String × List RepoData) (hp : p ∈ dictInsert d k v) : p ∈ d ∨ p = (k, v) := by
  rw [dictInsert] at hp
  split at hp
  · obtain ⟨q, hq, hpq⟩ := List.mem_map.mp hp
    by_cases hqk : q.1 == k
    · right; rw [← hpq]; simp [hqk]
    · left
      rw [← hpq]
      simpa [hqk] using hq
  · rcases List.mem_append.mp hp with hin | hin
    · left; exact hin
    · right; simpa using hin

theorem searchAux_table_sound (token : Option String) (ms mf : Nat) :
    ∀ (ks : List String) (evs : List HttpEvent) (now : Int)
      (acc : List (String × List RepoData)),
      (∀ p ∈ acc, ∀ r ∈ p.2, ms ≤ r.stars ∧ mf ≤ r.forks) →
      ∀ p ∈ (searchAux token ms mf ks evs now acc).table, ∀ r ∈ p.2,
        ms ≤ r.stars ∧ mf ≤ r.forks := by
  intro ks
  induction ks with
  | nil => intro evs now acc hacc; simpa [searchAux_nil] using hacc
  | cons k ks ih =>
    intro evs now acc hacc
    cases ho : (runPages (buildHeaders token) ms mf evs GITHUB_API_BASE_URL
        ⟨[], 0, now⟩).outcome with
    | done =>
      rw [searchAux_cons_done token ms mf k ks evs now acc ho]
      refine ih _ _ _ ?_
      intro p hp r hr
      rcases dictInsert_mem acc k _ p hp with hin | hin
      · exact hacc p hin r hr
      · refine runPages_collected_sound (buildHeaders token) ms mf evs GITHUB_API_BASE_URL ⟨[], 0, now⟩
          (by simp) r ?_
        rw [hin] at hr
        exact hr
    | stuck => rw [searchAux_cons_stuck token ms mf k ks evs now acc ho]; exact hacc
    | crashed m => rw [searchAux_cons_crashed token ms mf k ks evs now acc m ho]; exact hacc

/-- C4: every repository reaching the returned mapping passed the filter of
line 81 — its stars are at least `min_stars` and its forks at least
`min_forks` (first conjunct); any item failing either threshold is dropped by
that same filter, which is what the per-page extraction does (second
conjunct, the contrapositive reading); and with the default thresholds of
zero the extraction keeps every item (third conjunct). -/
theorem c4_threshold_filter :
    (∀ (keywords : List String) (token : Option String) (ms mf : Nat) (evs : List HttpEvent)
        (now : Int) (k : String) (rs : List RepoData) (r : RepoData),
      (k, rs) ∈ (search_github_repos keywords token ms mf evs now).table →
      r ∈ rs → ms ≤ r.stars ∧ mf ≤ r.forks)
    ∧ (∀ (ms mf : Nat) (items : List Item) (r : RepoData),
      r ∈ pageExtract ms mf items → ms ≤ r.stars ∧ mf ≤ r.forks)
    ∧ (∀ items : List Item, pageExtract 0 0 items = items.map itemToRepo) := by
  refine ⟨?_, pageExtract_sound, ?_⟩
  · intro keywords token ms mf evs now k rs r hmem hr
    exact searchAux_table_sound token ms mf keywords evs now [] (by simp) (k, rs) hmem r hr
  · intro items
    simp [pageExtract]

/-- Witness for C4: with thresholds 2 stars and 1 fork, a record that made it
into the output of a concrete run indeed satisfies both thresholds. -/
theorem c4_threshold_filter_witness :
    2 ≤ (RepoData.mk "r1" none "u" 3 1).stars ∧ 1 ≤ (RepoData.mk "r1" none "u" 3 1).forks :=
  c4_threshold_filter.1 ["a"] none 2 1
    [HttpEvent.resp 200 ⟨none, none, none⟩
      (some (BodyJson.dict (some (ItemsJson.list
        [ItemJson.ok ⟨"r1", none, "u", 3, 1⟩, ItemJson.ok ⟨"r2", none, "v", 9, 0⟩]))))]
    0 "a" [⟨"r1", none, "u", 3, 1⟩] ⟨"r1", none, "u", 3, 1⟩ (by decide) (by decide)

theorem dictInsert_key_self (d : List (String × List RepoData)) (k : String)
    (v : List RepoData) : ∃ w, (k, w) ∈ dictInsert d k v := by
  rw [dictInsert]
  split
  · rename_i hany
    rw [List.any_eq_true] at hany
    obtain ⟨q, hq, hqk⟩ := hany
    refine ⟨v, List.mem_map.mpr ⟨q, hq, ?_⟩⟩
    simp [hqk]
  · exact ⟨v, List.mem_append.mpr (Or.inr (by simp))⟩

theorem dictInsert_key_mem (d : List (String × List RepoData)) (k k' : String)
    (v' : List RepoData) (h : ∃ v, (k, v) ∈ d) : ∃ w, (k, w) ∈ dictInsert d k' v' := by
  by_cases hkk : k = k'
  · subst hkk; exact dictInsert_key_self d k v'
  · obtain ⟨v, hv⟩ := h
    rw [dictInsert]
    split
    · refine ⟨v, List.mem_map.mpr ⟨(k, v), hv, ?_⟩⟩
      simp [hkk]
    · exact ⟨v, List.mem_append.mpr (Or.inl hv)⟩

theorem searchAux_keys_present (token : Option String) (ms mf : Nat) :
    ∀ (ks : List String) (evs : List HttpEvent) (now : Int)
      (acc : List (String × List RepoData)),
      (searchAux token ms mf ks evs now acc).outcome = PageEnd.done →
      ∀ k, (k ∈ ks ∨ ∃ v, (k, v) ∈ acc) →
        ∃ v, (k, v) ∈ (searchAux token ms mf ks evs now acc).table := by
  intro ks
  induction ks with
  | nil =>
    intro evs now acc hdone k hk
    rcases hk with hk | hk
    · simp at hk
    · simpa [searchAux_nil] using hk
  | cons k0 ks ih =>
    intro evs now acc hdone k hk
    cases ho : (runPages (buildHeaders token) ms mf evs GITHUB_API_BASE_URL
        ⟨[], 0, now⟩).outcome with
    | done =>
      rw [searchAux_cons_done token ms mf k0 ks evs now acc ho] at hdone ⊢
      refine ih _ _ _ hdone k ?_
      rcases hk with hk | hk
      · rcases List.mem_cons.mp hk with hk | hk
        · subst hk; right; exact dictInsert_key_self acc k _
        · left; exact hk
      · right; exact dictInsert_key_mem acc k k0 _ hk
    | stuck =>
      rw [searchAux_cons_stuck token ms mf k0 ks evs now acc ho] at hdone
      simp at hdone
    | crashed m =>
      rw [searchAux_cons_crashed token ms mf k0 ks evs now acc m ho] at hdone
      simp at hdone

theorem runPages_six_failures (hs : List (String × String)) (ms mf : Nat)
    (evs : List HttpEvent) (url : String) (now : Int) :
    runPages hs ms mf (List.replicate 6 HttpEvent.raised ++ evs) url ⟨[], 0, now⟩ =
      ⟨[TraceEv.req url hs, TraceEv.slept 5, TraceEv.req url hs, TraceEv.slept 10,
        TraceEv.req url hs, TraceEv.slept 20, TraceEv.req url hs, TraceEv.slept 40,
        TraceEv.req url hs, TraceEv.slept 80, TraceEv.req url hs],
       ⟨[], 5, now + 5 + 10 + 20 + 40 + 80⟩, evs, PageEnd.done⟩ := rfl

/-- C5: keywords are processed independently.  Whenever the run completes,
the returned mapping has an entry for every input keyword (first conjunct);
and a keyword whose fetch exhausts the whole retry budget — six straight
network failures — does not abort the rest: the run records the empty partial
result for that keyword and continues with the remaining keywords exactly as
if it had started there, against the remaining script (second conjunct). -/
theorem c5_keyword_independence :
    (∀ (keywords : List String) (token : Option String) (ms mf : Nat) (evs : List HttpEvent)
        (now : Int) (k : String),
      (search_github_repos keywords token ms mf evs now).outcome = PageEnd.done →
      k ∈ keywords →
      ∃ v, (k, v) ∈ (search_github_repos keywords token ms mf evs now).table)
    ∧ (∀ (token : Option String) (ms mf : Nat) (k : String) (ks : List String)
        (evs : List HttpEvent) (now : Int) (acc : List (String × List RepoData)),
      (searchAux token ms mf (k :: ks)
          (List.replicate 6 HttpEvent.raised ++ evs) now acc).table =
        (searchAux token ms mf ks evs (now + 5 + 10 + 20 + 40 + 80)
          (dictInsert acc k [])).table) := by
  constructor
  · intro keywords token ms mf evs now k hdone hk
    exact searchAux_keys_present token ms mf keywords evs now [] hdone k (Or.inl hk)
  · intro token ms mf k ks evs now acc
    have h6 := runPages_six_failures (buildHeaders token) ms mf evs GITHUB_API_BASE_URL now
    rw [searchAux_cons_done token ms mf k ks _ now acc (by rw [h6])]
    rw [h6]

/-- Witness for C5: in a run where the first keyword exhausts its retries and
the second fetches one clean page, the completed mapping still has an entry
for the second keyword. -/
theorem c5_keyword_independence_witness :
    ∃ v, ("b", v) ∈ (search_github_repos ["a", "b"] none 0 0
      (List.replicate 6 HttpEvent.raised ++
        [HttpEvent.resp 200 ⟨none, none, none⟩ (some (BodyJson.dict none))]) 0).table :=
  c5_keyword_independence.1 ["a", "b"] none 0 0
    (List.replicate 6 HttpEvent.raised ++
      [HttpEvent.resp 200 ⟨none, none, none⟩ (some (BodyJson.dict none))]) 0 "b"
    (by decide) (by decide)

theorem merge_cons (S : List EnrichedRecord) (r : EnrichedRecord) (R : List EnrichedRecord) :
    merge S (r :: R) = merge (addRecord S r) R := rfl

theorem addRecord_append (S : List EnrichedRecord) (r : EnrichedRecord) :
    ∃ u, addRecord S r = S ++ u := by
  rw [addRecord]
  split
  · exact ⟨[], by simp⟩
  · exact ⟨[r], rfl⟩

theorem merge_append (R : List EnrichedRecord) :
    ∀ S, ∃ t, merge S R = S ++ t := by
  induction R with
  | nil => intro S; exact ⟨[], by simp [merge]⟩
  | cons r R ih =>
    intro S
    obtain ⟨u, hu⟩ := addRecord_append S r
    obtain ⟨t, ht⟩ := ih (addRecord S r)
    exact ⟨u ++ t, by rw [merge_cons, ht, hu, List.append_assoc]⟩

theorem mem_addRecord_self (S : List EnrichedRecord) (r : EnrichedRecord) :
    ∃ s ∈ addRecord S r, s.url = r.url := by
  rw [addRecord]
  split
  · rename_i hany
    rw [List.any_eq_true] at hany
    obtain ⟨s, hs, hsr⟩ := hany
    exact ⟨s, hs, by simpa using hsr⟩
  · exact ⟨r, by simp, rfl⟩

theorem merge_covers (R : List EnrichedRecord) :
    ∀ S, ∀ r ∈ R, ∃ s ∈ merge S R, s.url = r.url := by
  induction R with
  | nil => intro S r hr; simp at hr
  | cons r0 R ih =>
    intro S r hr
    rcases List.mem_cons.mp hr with hr | hr
    · subst hr
      obtain ⟨s, hs, hsu⟩ := mem_addRecord_self S r
      obtain ⟨t, ht⟩ := merge_append R (addRecord S r)
      refine ⟨s, ?_, hsu⟩
      rw [merge_cons, ht]
      exact List.mem_append.mpr (Or.inl hs)
    · rw [merge_cons]
      exact ih (addRecord S r0) r hr

theorem addRecord_covered (S : List EnrichedRecord) (r : EnrichedRecord)
    (h : ∃ s ∈ S, s.url = r.url) : addRecord S r = S := by
  rw [addRecord, if_pos]
  rw [List.any_eq_true]
  obtain ⟨s, hs, hsu⟩ := h
  exact ⟨s, hs, by simp [hsu]⟩

theorem merge_covered (R : List EnrichedRecord) :
    ∀ S, (∀ r ∈ R, ∃ s ∈ S, s.url = r.url) → merge S R = S := by
  induction R with
  | nil => intro S _; rfl
  | cons r0 R ih =>
    intro S h
    rw [merge_cons, addRecord_covered S r0 (h r0 (by simp))]
    exact ih S (fun r hr => h r (by simp [hr]))

theorem addRecord_nodup (S : List EnrichedRecord) (r : EnrichedRecord)
    (h : (S.map (fun s => s.url)).Nodup) :
    ((addRecord S r).map (fun s => s.url)).Nodup := by
  rw [addRecord]
  split
  · exact h
  · rename_i hany
    have hnot : r.url ∉ S.map (fun s => s.url) := by
      intro hmem
      obtain ⟨s, hs, hsu⟩ := List.mem_map.mp hmem
      exact hany (List.any_eq_true.mpr ⟨s, hs, by simp [hsu]⟩)
    simp [List.nodup_append, h, hnot]

theorem merge_nodup (R : List EnrichedRecord) :
    ∀ S, (S.map (fun s => s.url)).Nodup → ((merge S R).map (fun s => s.url)).Nodup := by
  induction R with
  | nil => intro S h; exact h
  | cons r0 R ih =>
    intro S h
    rw [merge_cons]
    exact ih _ (addRecord_nodup S r0 h)

/-- C6: the spec-modelled persistent merge is idempotent — merging the same
batch into the result of merging it changes nothing, so saving twice equals
saving once (first conjunct); it preserves the no-duplicate-`url` store
invariant (second conjunct); and it only ever appends, so records already in
the store are never modified or removed (third conjunct). -/
theorem c6_merge_idempotent_nodup_append :
    (∀ S R : List EnrichedRecord, merge (merge S R) R = merge S R)
    ∧ (∀ S R : List EnrichedRecord,
      (S.map (fun s => s.url)).Nodup → ((merge S R).map (fun s => s.url)).Nodup)
    ∧ (∀ S R : List EnrichedRecord, ∃ t, merge S R = S ++ t) := by
  refine ⟨?_, ?_, ?_⟩
  · intro S R
    exact merge_covered R (merge S R) (fun r hr => merge_covers R S r hr)
  · intro S R h
    exact merge_nodup R S h
  · intro S R
    exact merge_append R S

/-- Witness for C6: merging a batch containing one duplicate `url` and one
new `url` into a concrete store keeps the no-duplicate invariant. -/
theorem c6_merge_idempotent_nodup_append_witness :
    ((merge [⟨"n", "u1", none, 0, 0, none, [], [], "other"⟩]
        [⟨"m", "u1", none, 1, 1, none, [], [], "other"⟩,
         ⟨"p", "u2", none, 2, 2, none, [], [], "other"⟩]).map (fun s => s.url)).Nodup :=
  c6_merge_idempotent_nodup_append.2.1
    [⟨"n", "u1", none, 0, 0, none, [], [], "other"⟩]
    [⟨"m", "u1", none, 1, 1, none, [], [], "other"⟩,
     ⟨"p", "u2", none, 2, 2, none, [], [], "other"⟩] (by decide)

theorem classify_no_crash (ms mf : Nat) (now : Int) (ev : HttpEvent)
    (hok : evOK ev = true) (m : String) : classify ms mf now ev ≠ Action.crash m := by
  cases ev with
  | raised => simp [classify]
  | resp s h body =>
    rw [evOK, Bool.and_eq_true] at hok
    obtain ⟨h403, hbody⟩ := hok
    simp only [classify]
    split
    · rename_i hs403
      rw [if_pos hs403, Bool.and_eq_true] at h403
      obtain ⟨hrem, hreset⟩ := h403
      obtain ⟨v1, hv1⟩ := pyIntD_of_hdrStrOK h.rateRemaining 1 hrem
      obtain ⟨v2, hv2⟩ := pyIntD_of_hdrStrOK h.rateReset (now + 60) hreset
      rw [hv1, hv2]
      simp
    · split
      · simp
      · split
        · simp
        · simp [bodyOK] at hbody
        · simp
        · simp [bodyOK, itemsOK] at hbody
        · rename_i l
          rw [bodyOK, itemsOK] at hbody
          obtain ⟨its, hits⟩ := Option.isSome_iff_exists.mp hbody
          rw [pageScan_of_goodItems ms mf l its hits]
          simp

theorem runPages_no_crash (hs : List (String × String)) (ms mf : Nat) :
    ∀ (evs : List HttpEvent) (url : String) (st : PState),
      (∀ ev ∈ evs, evOK ev = true) →
      ∀ m, (runPages hs ms mf evs url st).outcome ≠ PageEnd.crashed m := by
  intro evs
  induction evs with
  | nil => intro url st _ m; simp [runPages_nil]
  | cons ev evs ih =>
    intro url st hok m
    have hok0 : evOK ev = true := hok ev (by simp)
    have hoks : ∀ e ∈ evs, evOK e = true := fun e he => hok e (by simp [he])
    cases hc : classify ms mf st.now ev with
    | crash m2 => exact absurd hc (classify_no_crash ms mf st.now ev hok0 m2)
    | rateLimit w =>
      rw [runPages_step_rateLimit hs ms mf ev evs url st w hc]
      simpa using ih url ⟨st.collected, st.retries, st.now + w⟩ hoks m
    | exn =>
      by_cases hretry : st.retries < MAX_RETRIES
      · rw [runPages_step_exn_retry hs ms mf ev evs url st hc hretry]
        simpa using ih url
          ⟨st.collected, st.retries + 1, st.now + BASE_BACKOFF_TIME * 2 ^ st.retries⟩ hoks m
      · rw [runPages_step_exn_stop hs ms mf ev evs url st hc hretry]
        simp
    | page recs next =>
      cases next with
      | none =>
        rw [runPages_step_page_none hs ms mf ev evs url st recs hc]
        simp
      | some nxt =>
        rw [runPages_step_page_some hs ms mf ev evs url st recs nxt hc]
        simpa using ih nxt ⟨st.collected ++ recs, st.retries, st.now⟩ hoks m

theorem runPages_rest_subset (hs : List (String × String)) (ms mf : Nat) :
    ∀ (evs : List HttpEvent) (url : String) (st : PState) (e : HttpEvent),
      e ∈ (runPages hs ms mf evs url st).rest → e ∈ evs := by
  intro evs
  induction evs with
  | nil => intro url st e he; simp [runPages_nil] at he
  | cons ev evs ih =>
    intro url st e he
    cases hc : classify ms mf st.now ev with
    | crash m =>
      rw [runPages_step_crash hs ms mf ev evs url st m hc] at he
      exact List.mem_cons_of_mem ev he
    | rateLimit w =>
      rw [runPages_step_rateLimit hs ms mf ev evs url st w hc] at he
      exact List.mem_cons_of_mem ev (ih url ⟨st.collected, st.retries, st.now + w⟩ e he)
    | exn =>
      by_cases hretry : st.retries < MAX_RETRIES
      · rw [runPages_step_exn_retry hs ms mf ev evs url st hc hretry] at he
        exact List.mem_cons_of_mem ev (ih url _ e he)
      · rw [runPages_step_exn_stop hs ms mf ev evs url st hc hretry] at he
        exact List.mem_cons_of_mem ev he
    | page recs next =>
      cases next with
      | none =>
        rw [runPages_step_page_none hs ms mf ev evs url st recs hc] at he
        exact List.mem_cons_of_mem ev he
      | some nxt =>
        rw [runPages_step_page_some hs ms mf ev evs url st recs nxt hc] at he
        exact List.mem_cons_of_mem ev (ih nxt ⟨st.collected ++ recs, st.retries, st.now⟩ e he)

theorem searchAux_no_crash (token : Option String) (ms mf : Nat) :
    ∀ (ks : List String) (evs : List HttpEvent) (now : Int)
      (acc : List (String × List RepoData)),
      (∀ ev ∈ evs, evOK ev = true) →
      ∀ m, (searchAux token ms mf ks evs now acc).outcome ≠ PageEnd.crashed m := by
  intro ks
  induction ks with
  | nil => intro evs now acc _ m; simp [searchAux_nil]
  | cons k ks ih =>
    intro evs now acc hok m
    cases ho : (runPages (buildHeaders token) ms mf evs GITHUB_API_BASE_URL
        ⟨[], 0, now⟩).outcome with
    | done =>
      rw [searchAux_cons_done token ms mf k ks evs now acc ho]
      have hrest : ∀ ev ∈ (runPages (buildHeaders token) ms mf evs GITHUB_API_BASE_URL
          ⟨[], 0, now⟩).rest, evOK ev = true :=
        fun e he =>
          hok e (runPages_rest_subset (buildHeaders token) ms mf evs GITHUB_API_BASE_URL
            ⟨[], 0, now⟩ e he)
      simpa using ih _ _ _ hrest m
    | stuck =>
      rw [searchAux_cons_stuck token ms mf k ks evs now acc ho]
      simp
    | crashed m2 =>
      exact absurd ho
        (runPages_no_crash (buildHeaders token) ms mf evs GITHUB_API_BASE_URL ⟨[], 0, now⟩
          hok m2)

/-- C7 counterexample: a single 403 response whose `X-RateLimit-Remaining`
header is the non-numeric string `"soon"` makes line 68's `int(...)` raise a
`ValueError` that no handler catches — a recoverable-looking rate-limit
response crashes the whole run, contradicting the claim that malformed
rate-limit headers never crash it. -/
theorem c7_counterexample_malformed_header :
    (search_github_repos ["a"] none 0 0
      [HttpEvent.resp 403 ⟨some "soon", some "soon", none⟩ none] 0).outcome =
      PageEnd.crashed "ValueError" := by decide

/-- C7 (amended): every `RequestException`-class failure — a failed request,
an error status turned into `HTTPError` by `raise_for_status`, an unparseable
body — is caught inside the loop and never escapes: over any script whose
events are free of the uncaught schema surprises (`evOK`: 403 rate-limit
headers that `int` accepts, parsed bodies that are JSON objects, and `items`
values that are lists of well-formed entries), no run ends in an uncaught
exception (first conjunct).  The schema surprises do crash the run, on top of
the counterexample's non-numeric rate-limit header: a 200 object body whose
`items` array holds a malformed entry dies of the entry's uncaught
`KeyError` at line 81's subscript (second conjunct), and a 200 object body
whose `items` value is not iterable dies of an uncaught `TypeError` at the
`for` of line 80 (third conjunct). -/
theorem c7_no_uncaught_on_wellformed :
    (∀ (keywords : List String) (token : Option String) (ms mf : Nat)
        (evs : List HttpEvent) (now : Int),
      (∀ ev ∈ evs, evOK ev = true) →
      ∀ m, (search_github_repos keywords token ms mf evs now).outcome ≠ PageEnd.crashed m)
    ∧ (search_github_repos ["a"] none 0 0
        [HttpEvent.resp 200 ⟨none, none, none⟩
          (some (BodyJson.dict (some (ItemsJson.list [ItemJson.bad "KeyError"]))))]
        0).outcome = PageEnd.crashed "KeyError"
    ∧ (search_github_repos ["a"] none 0 0
        [HttpEvent.resp 200 ⟨none, none, none⟩
          (some (BodyJson.dict (some ItemsJson.notList)))]
        0).outcome = PageEnd.crashed "TypeError" := by
  refine ⟨?_, by decide, by decide⟩
  intro keywords token ms mf evs now hok m
  exact searchAux_no_crash token ms mf keywords evs now [] hok m

/-- Witness for C7 (amended) on a concrete short script containing a network
failure, a server error and a clean page with one well-formed item. -/
theorem c7_no_uncaught_on_wellformed_witness :
    (search_github_repos ["a"] none 0 0
      [HttpEvent.raised, HttpEvent.resp 500 ⟨none, none, none⟩ none,
       HttpEvent.resp 200 ⟨none, none, none⟩
         (some (BodyJson.dict (some (ItemsJson.list [ItemJson.ok ⟨"r", none, "x", 1, 1⟩]))))]
      0).outcome ≠ PageEnd.crashed "ValueError" :=
  c7_no_uncaught_on_wellformed.1 ["a"] none 0 0
    [HttpEvent.raised, HttpEvent.resp 500 ⟨none, none, none⟩ none,
     HttpEvent.resp 200 ⟨none, none, none⟩
       (some (BodyJson.dict (some (ItemsJson.list [ItemJson.ok ⟨"r", none, "x", 1, 1⟩]))))] 0
    (by decide) "ValueError"

theorem runPages_req_headers (hs : List (String × String)) (ms mf : Nat) :
    ∀ (evs : List HttpEvent) (url : String) (st : PState) (u : String)
      (h2 : List (String × String)),
      TraceEv.req u h2 ∈ (runPages hs ms mf evs url st).trace → h2 = hs := by
  intro evs
  induction evs with
  | nil => intro url st u h2 hmem; simp [runPages_nil] at hmem
  | cons ev evs ih =>
    intro url st u h2 hmem
    cases hc : classify ms mf st.now ev with
    | crash m =>
      rw [runPages_step_crash hs ms mf ev evs url st m hc] at hmem
      simp only [List.mem_singleton, TraceEv.req.injEq] at hmem
      exact hmem.2
    | rateLimit w =>
      rw [runPages_step_rateLimit hs ms mf ev evs url st w hc] at hmem
      simp only [withTrace_trace, List.cons_append, List.nil_append, List.mem_cons,
        TraceEv.req.injEq] at hmem
      rcases hmem with ⟨-, hmem⟩ | hmem | hmem
      · exact hmem
      · exact absurd hmem (by simp)
      · exact ih url ⟨st.collected, st.retries, st.now + w⟩ u h2 hmem
    | exn =>
      by_cases hretry : st.retries < MAX_RETRIES
      · rw [runPages_step_exn_retry hs ms mf ev evs url st hc hretry] at hmem
        simp only [withTrace_trace, List.cons_append, List.nil_append, List.mem_cons,
          TraceEv.req.injEq] at hmem
        rcases hmem with ⟨-, hmem⟩ | hmem | hmem
        · exact hmem
        · exact absurd hmem (by simp)
        · exact ih url
            ⟨st.collected, st.retries + 1, st.now + BASE_BACKOFF_TIME * 2 ^ st.retries⟩
            u h2 hmem
      · rw [runPages_step_exn_stop hs ms mf ev evs url st hc hretry] at hmem
        simp only [List.mem_singleton, TraceEv.req.injEq] at hmem
        exact hmem.2
    | page recs next =>
      cases next with
      | none =>
        rw [runPages_step_page_none hs ms mf ev evs url st recs hc] at hmem
        simp only [List.mem_singleton, TraceEv.req.injEq] at hmem
        exact hmem.2
      | some nxt =>
        rw [runPages_step_page_some hs ms mf ev evs url st recs nxt hc] at hmem
        simp only [withTrace_trace, List.cons_append, List.nil_append, List.mem_cons,
          TraceEv.req.injEq] at hmem
        rcases hmem with ⟨-, hmem⟩ | hmem
        · exact hmem
        · exact ih nxt ⟨st.collected ++ recs, st.retries, st.now⟩ u h2 hmem

theorem searchAux_req_headers (token : Option String) (ms mf : Nat) :
    ∀ (ks : List String) (evs : List HttpEvent) (now : Int)
      (acc : List (String × List RepoData)) (u : String) (h2 : List (String × String)),
      TraceEv.req u h2 ∈ (searchAux token ms mf ks evs now acc).trace →
      h2 = buildHeaders token := by
  intro ks
  induction ks with
  | nil => intro evs now acc u h2 hmem; simp [searchAux_nil] at hmem
  | cons k ks ih =>
    intro evs now acc u h2 hmem
    cases ho : (runPages (buildHeaders token) ms mf evs GITHUB_API_BASE_URL
        ⟨[], 0, now⟩).outcome with
    | done =>
      rw [searchAux_cons_done token ms mf k ks evs now acc ho] at hmem
      rcases List.mem_append.mp hmem with hmem | hmem
      · exact runPages_req_headers (buildHeaders token) ms mf evs GITHUB_API_BASE_URL
          ⟨[], 0, now⟩ u h2 hmem
      · exact ih _ _ _ u h2 hmem
    | stuck =>
      rw [searchAux_cons_stuck token ms mf k ks evs now acc ho] at hmem
      exact runPages_req_headers (buildHeaders token) ms mf evs GITHUB_API_BASE_URL
        ⟨[], 0, now⟩ u h2 hmem
    | crashed m =>
      rw [searchAux_cons_crashed token ms mf k ks evs now acc m ho] at hmem
      exact runPages_req_headers (buildHeaders token) ms mf evs GITHUB_API_BASE_URL
        ⟨[], 0, now⟩ u h2 hmem

theorem runPages_hs_independent (hs hs2 : List (String × String)) (ms mf : Nat) :
    ∀ (evs : List HttpEvent) (url : String) (st : PState),
      (runPages hs ms mf evs url st).st = (runPages hs2 ms mf evs url st).st
      ∧ (runPages hs ms mf evs url st).rest = (runPages hs2 ms mf evs url st).rest
      ∧ (runPages hs ms mf evs url st).outcome = (runPages hs2 ms mf evs url st).outcome := by
  intro evs
  induction evs with
  | nil => intro url st; simp [runPages_nil]
  | cons ev evs ih =>
    intro url st
    cases hc : classify ms mf st.now ev with
    | crash m =>
      rw [runPages_step_crash hs ms mf ev evs url st m hc,
          runPages_step_crash hs2 ms mf ev evs url st m hc]
      simp
    | rateLimit w =>
      rw [runPages_step_rateLimit hs ms mf ev evs url st w hc,
          runPages_step_rateLimit hs2 ms mf ev evs url st w hc]
      simpa using ih url ⟨st.collected, st.retries, st.now + w⟩
    | exn =>
      by_cases hretry : st.retries < MAX_RETRIES
      · rw [runPages_step_exn_retry hs ms mf ev evs url st hc hretry,
            runPages_step_exn_retry hs2 ms mf ev evs url st hc hretry]
        simpa using ih url
          ⟨st.collected, st.retries + 1, st.now + BASE_BACKOFF_TIME * 2 ^ st.retries⟩
      · rw [runPages_step_exn_stop hs ms mf ev evs url st hc hretry,
            runPages_step_exn_stop hs2 ms mf ev evs url st hc hretry]
        simp
    | page recs next =>
      cases next with
      | none =>
        rw [runPages_step_page_none hs ms mf ev evs url st recs hc,
            runPages_step_page_none hs2 ms mf ev evs url st recs hc]
        simp
      | some nxt =>
        rw [runPages_step_page_some hs ms mf ev evs url st recs nxt hc,
            runPages_step_page_some hs2 ms mf ev evs url st recs nxt hc]
        simpa using ih nxt ⟨st.collected ++ recs, st.retries, st.now⟩

theorem searchAux_token_table (t : String) (ms mf : Nat) :
    ∀ (ks : List String) (evs : List HttpEvent) (now : Int)
      (acc : List (String × List RepoData)),
      (searchAux none ms mf ks evs now acc).table =
        (searchAux (some t) ms mf ks evs now acc).table
      ∧ (searchAux none ms mf ks evs now acc).outcome =
        (searchAux (some t) ms mf ks evs now acc).outcome := by
  intro ks
  induction ks with
  | nil => intro evs now acc; simp [searchAux_nil]
  | cons k ks ih =>
    intro evs now acc
    have hind := runPages_hs_independent (buildHeaders none) (buildHeaders (some t)) ms mf evs
      GITHUB_API_BASE_URL ⟨[], 0, now⟩
    cases ho : (runPages (buildHeaders none) ms mf evs GITHUB_API_BASE_URL
        ⟨[], 0, now⟩).outcome with
    | done =>
      have ho2 : (runPages (buildHeaders (some t)) ms mf evs GITHUB_API_BASE_URL
          ⟨[], 0, now⟩).outcome = PageEnd.done := by rw [← hind.2.2]; exact ho
      rw [searchAux_cons_done none ms mf k ks evs now acc ho,
          searchAux_cons_done (some t) ms mf k ks evs now acc ho2]
      rw [← hind.1, ← hind.2.1]
      simpa using ih _ _ _
    | stuck =>
      have ho2 : (runPages (buildHeaders (some t)) ms mf evs GITHUB_API_BASE_URL
          ⟨[], 0, now⟩).outcome = PageEnd.stuck := by rw [← hind.2.2]; exact ho
      rw [searchAux_cons_stuck none ms mf k ks evs now acc ho,
          searchAux_cons_stuck (some t) ms mf k ks evs now acc ho2]
      simp
    | crashed m =>
      have ho2 : (runPages (buildHeaders (some t)) ms mf evs GITHUB_API_BASE_URL
          ⟨[], 0, now⟩).outcome = PageEnd.crashed m := by rw [← hind.2.2]; exact ho
      rw [searchAux_cons_crashed none ms mf k ks evs now acc m ho,
          searchAux_cons_crashed (some t) ms mf k ks evs now acc m ho2]
      simp

/-- C9: the credential is optional and only affects the `Authorization`
header.  The headers built without a token carry no `Authorization` entry
(first conjunct); a supplied non-empty token puts
`Authorization: Bearer token` into the headers (second conjunct); every
outgoing request of a run carries exactly the headers built from its token
(third conjunct); and the returned mapping and outcome of a tokenless run
are identical to those of the same run with any token — the search executes
and returns results without a credential (fourth conjunct). -/
theorem c9_optional_token :
    (∀ p ∈ buildHeaders none, p.1 ≠ "Authorization")
    ∧ (∀ t : String, t ≠ "" → ("Authorization", "Bearer " ++ t) ∈ buildHeaders (some t))
    ∧ (∀ (keywords : List String) (token : Option String) (ms mf : Nat)
        (evs : List HttpEvent) (now : Int) (u : String) (h2 : List (String × String)),
      TraceEv.req u h2 ∈ (search_github_repos keywords token ms mf evs now).trace →
      h2 = buildHeaders token)
    ∧ (∀ (keywords : List String) (t : String) (ms mf : Nat) (evs : List HttpEvent)
        (now : Int),
      (search_github_repos keywords none ms mf evs now).table =
        (search_github_repos keywords (some t) ms mf evs now).table
      ∧ (search_github_repos keywords none ms mf evs now).outcome =
        (search_github_repos keywords (some t) ms mf evs now).outcome) := by
  refine ⟨by decide, ?_, ?_, ?_⟩
  · intro t ht
    simp [buildHeaders, ht]
  · intro keywords token ms mf evs now u h2 hmem
    exact searchAux_req_headers token ms mf keywords evs now [] u h2 hmem
  · intro keywords t ms mf evs now
    exact searchAux_token_table t ms mf keywords evs now []

/-- C9 counterexample: the empty string is a supplied (non-`None`) token, yet
`if token:` treats it as falsy, so the request of this concrete run goes out
without any `Authorization` header — it is not true that every supplied token
puts the bearer header on every outgoing request. -/
theorem c9_counterexample_empty_token :
    (search_github_repos ["a"] (some "") 0 0
      [HttpEvent.resp 200 ⟨none, none, none⟩ (some (BodyJson.dict none))] 0).trace =
      [TraceEv.req GITHUB_API_BASE_URL
        [("Accept", "application/vnd.github+json"),
         ("X-GitHub-Api-Version", GITHUB_API_VERSION)]] := by decide

/-- Witness for C9 at concrete inputs: the tokenless header list's first
entry is not `Authorization`; the token `"tok"` yields the bearer header; and
a concrete request trace entry carries the headers built from its token. -/
theorem c9_optional_token_witness :
    (("Accept", "application/vnd.github+json") : String × String).1 ≠ "Authorization"
    ∧ ("Authorization", "Bearer " ++ "tok") ∈ buildHeaders (some "tok")
    ∧ buildHeaders (some "tok") = buildHeaders (some "tok") :=
  ⟨c9_optional_token.1 ("Accept", "application/vnd.github+json") (by decide),
   c9_optional_token.2.1 "tok" (by decide),
   c9_optional_token.2.2.1 ["a"] (some "tok") 0 0
     [HttpEvent.resp 200 ⟨none, none, none⟩ (some (BodyJson.dict none))] 0
     GITHUB_API_BASE_URL (buildHeaders (some "tok")) (by decide)⟩

/-- C8 counterexample: the claim says an empty keyword list is rejected as an
error, but `search_github_repos` with an empty keyword list simply runs the
`for` loop zero times and returns the empty mapping with a clean outcome —
nothing is rejected. -/
theorem c8_counterexample_empty_accepted :
    search_github_repos [] none 0 0 [] 0 = ⟨[], [], PageEnd.done⟩ := rfl

/-- C8 (amended): an empty keyword list is not an error condition anywhere in
the code: for every token, thresholds, script and clock, the search silently
succeeds with an empty mapping, an empty trace (no request is ever issued)
and a clean outcome. -/
theorem c8_empty_keywords_silent :
    ∀ (token : Option String) (ms mf : Nat) (evs : List HttpEvent) (now : Int),
      search_github_repos [] token ms mf evs now = ⟨[], [], PageEnd.done⟩ := by
  intro token ms mf evs now
  rfl

end GithubRepos
